import Mathlib

/-
Verification development for the TeamTalk worker of
`teamtalk-reg-system-rs` (`src/tt/worker.rs`).

The worker owns the connection to the external TeamTalk client, drains a
command queue, polls events, correlates command ids with pending reply
slots (`pending_cmds`), aggregates multi-message list responses
(`pending_lists`) and debounces account-removal events
(`pending_deletions`).

Embedding conventions:
* Rust `HashMap<i32, V>` / `HashMap<String, V>` is modelled as an
  association list with HashMap semantics (`ainsert` replaces the value
  stored at an existing key, `aremove` deletes it).
* A `tokio::sync::oneshot::Sender` reply slot is modelled by a natural
  number token; sending on a slot is modelled as emitting a `Reply`
  carrying that token.
* `std::time::Instant` is modelled as a `Nat` (milliseconds);
  `Instant::duration_since` is truncated subtraction, matching Rust's
  saturating behaviour.
* Calls into the external TeamTalk client are recorded as `ClientCall`
  values; the id that a dispatch call returns is supplied by a
  `ClientOracle` argument, since the client is an external collaborator.
* `tracing` log lines are not modelled, except for the one warning that
  the specification mentions (an account item dropped for want of a
  pending list request), recorded in the `warns` output.
-/

namespace TTRS

/-- Association list standing in for a Rust `HashMap`. -/
abbrev AList (κ α : Type) := List (κ × α)

/-- Lookup in an association list (first matching key wins). -/
def alookup {κ α : Type} [DecidableEq κ] (k : κ) : AList κ α → Option α
  | [] => none
  | (k', v) :: m => if k' = k then some v else alookup k m

/-- HashMap-style insert: replace the value at an existing key, otherwise append. -/
def ainsert {κ α : Type} [DecidableEq κ] (k : κ) (v : α) : AList κ α → AList κ α
  | [] => [(k, v)]
  | (k', v') :: m => if k' = k then (k, v) :: m else (k', v') :: ainsert k v m

/-- HashMap-style removal of a key. -/
def aremove {κ α : Type} [DecidableEq κ] (k : κ) : AList κ α → AList κ α
  | [] => []
  | (k', v) :: m => if k' = k then aremove k m else (k', v) :: aremove k m

/-- `struct PendingCommand { resp: oneshot::Sender<Result<bool, String>> }`:
the reply slot is modelled by its token. -/
structure PendingCommand where
  tok : Nat
  deriving DecidableEq, Repr

/-- `enum PendingListKind` from `worker.rs`: an enumerate-all request or an
existence check, each holding its reply slot (token). -/
inductive PendingListKind : Type
  | allUsers (tok : Nat)
  | checkExists (username : String) (tok : Nat)
  deriving DecidableEq, Repr

/-- `struct PendingListRequest` from `worker.rs`. -/
structure PendingListRequest where
  kind : PendingListKind
  accumulated : List String
  completed_at : Option Nat
  mismatch_logged : Bool
  deriving DecidableEq, Repr

/-- `enum TTAccountType`. -/
inductive TTAccountType : Type
  | default_
  | admin
  deriving DecidableEq, Repr

/-- `enum TTWorkerCommand` from `types.rs`.  Payload fields that only feed
the created account record or log lines (password, nickname, source info)
are kept as plain strings; each `resp` sender is a token. -/
inductive TTWorkerCommand : Type
  | createAccount (username password nickname : String)
      (account_type : TTAccountType) (tok : Nat)
  | checkUserExists (username : String) (tok : Nat)
  | getOnlineUsers (tok : Nat)
  | getAllUsers (tok : Nat)
  | deleteUser (username : String) (tok : Nat)
  deriving DecidableEq, Repr

/-- A user as returned by `client.get_server_users()` (`user_type` is the
raw `i32` before the `u8` clamp in the worker). -/
structure ServerUser where
  id : Int
  nickname : String
  username : String
  channel_id : Int
  user_type : Int
  deriving DecidableEq, Repr

/-- `struct OnlineUser` from `types.rs` (`user_type` after the `u8` clamp). -/
structure OnlineUser where
  id : Int
  nickname : String
  username : String
  channel_id : Int
  user_type : Nat
  deriving DecidableEq, Repr

/-- The `u8::try_from(u.user_type).unwrap_or(u8::MAX)` clamp in
`handle_command_connected`. -/
def clampUserType (ut : Int) : Nat :=
  if 0 ≤ ut ∧ ut ≤ 255 then ut.toNat else 255

/-- Mapping of one server user to an `OnlineUser` (`GetOnlineUsers` arm of
`handle_command_connected`). -/
def toOnlineUser (u : ServerUser) : OnlineUser :=
  { id := u.id
    nickname := u.nickname
    username := u.username
    channel_id := u.channel_id
    user_type := clampUserType u.user_type }

/-- A value sent on some reply slot, tagged with the slot's token. -/
inductive Reply : Type
  | cmdOk (tok : Nat)
  | cmdErr (tok : Nat) (msg : String)
  | allUsersReply (tok : Nat) (names : List String)
  | existsReply (tok : Nat) (b : Bool)
  | onlineReply (tok : Nat) (users : List OnlineUser)
  deriving DecidableEq, Repr

/-- A call made into the external TeamTalk client.  `sendToAll` records the
username interpolated into the localized broadcast text. -/
inductive ClientCall : Type
  | createUserAccount (username : String)
  | deleteUserAccount (username : String)
  | listUserAccounts (offset limit : Int)
  | sendToAll (username : String)
  | getServerUsers
  | login
  | setStatus
  | subscribe
  deriving DecidableEq, Repr

/-- The worker-loop state the claims are about: the `is_logged_in` flag and
the two correlation tables from `run_tt_loop`. -/
structure WorkerState where
  is_logged_in : Bool
  pending_cmds : AList Int PendingCommand
  pending_lists : AList Int PendingListRequest
  deriving DecidableEq, Repr

/-- Result of one worker step: the updated state, the replies sent on
reply slots, the calls made into the external client, and the modelled
warnings. -/
structure WOut where
  state : WorkerState
  replies : List Reply
  calls : List ClientCall
  warns : List String
  deriving DecidableEq, Repr

/-- Responses the external client gives synchronously during one command:
the id returned by a dispatch call and the `get_server_users()` result. -/
structure ClientOracle where
  cmdId : Int
  serverUsers : List ServerUser
  deriving DecidableEq, Repr

/-- `handle_create_account`: dispatch `create_user_account`; on a positive
id optionally broadcast and store the reply slot in `pending_cmds`,
otherwise resolve the slot with a dispatch error. -/
def handle_create_account (username : String) (tok : Nat) (cmdId : Int)
    (broadcast_enabled : Bool) (s : WorkerState) : WOut :=
  if cmdId > 0 then
    { state := { s with pending_cmds := ainsert cmdId ⟨tok⟩ s.pending_cmds }
      replies := []
      calls := ClientCall.createUserAccount username ::
        (if broadcast_enabled then [ClientCall.sendToAll username] else [])
      warns := [] }
  else
    { state := s
      replies := [Reply.cmdErr tok "Client error dispatching command"]
      calls := [ClientCall.createUserAccount username]
      warns := [] }

/-- `handle_delete_user`: dispatch `delete_user_account`; store the reply
slot on a positive id, otherwise resolve it with a dispatch error. -/
def handle_delete_user (username : String) (tok : Nat) (cmdId : Int)
    (s : WorkerState) : WOut :=
  if cmdId > 0 then
    { state := { s with pending_cmds := ainsert cmdId ⟨tok⟩ s.pending_cmds }
      replies := []
      calls := [ClientCall.deleteUserAccount username]
      warns := [] }
  else
    { state := s
      replies := [Reply.cmdErr tok "Failed to dispatch command"]
      calls := [ClientCall.deleteUserAccount username]
      warns := [] }

/-- `handle_get_all_users`: dispatch `list_user_accounts(0, 10000)`; store a
fresh `PendingListRequest` on a positive id, otherwise resolve the slot
with the empty list. -/
def handle_get_all_users (tok : Nat) (cmdId : Int) (s : WorkerState) : WOut :=
  if cmdId > 0 then
    let req : PendingListRequest :=
      { kind := PendingListKind.allUsers tok
        accumulated := []
        completed_at := none
        mismatch_logged := false }
    { state := { s with pending_lists := ainsert cmdId req s.pending_lists }
      replies := []
      calls := [ClientCall.listUserAccounts 0 10000]
      warns := [] }
  else
    { state := s
      replies := [Reply.allUsersReply tok []]
      calls := [ClientCall.listUserAccounts 0 10000]
      warns := [] }

/-- `handle_check_user_exists`: dispatch `list_user_accounts(0, 10000)`;
store a fresh existence-check `PendingListRequest` on a positive id,
otherwise resolve the slot with `false`. -/
def handle_check_user_exists (username : String) (tok : Nat) (cmdId : Int)
    (s : WorkerState) : WOut :=
  if cmdId > 0 then
    let req : PendingListRequest :=
      { kind := PendingListKind.checkExists username tok
        accumulated := []
        completed_at := none
        mismatch_logged := false }
    { state := { s with pending_lists := ainsert cmdId req s.pending_lists }
      replies := []
      calls := [ClientCall.listUserAccounts 0 10000]
      warns := [] }
  else
    { state := s
      replies := [Reply.existsReply tok false]
      calls := [ClientCall.listUserAccounts 0 10000]
      warns := [] }

/-- `handle_command_disconnected`: every command is rejected without
touching the client; create/delete slots get a connectivity error, the
existence check gets `false`, both list commands get the empty list. -/
def handle_command_disconnected (cmd : TTWorkerCommand) (s : WorkerState) : WOut :=
  match cmd with
  | TTWorkerCommand.createAccount _ _ _ _ tok =>
      { state := s
        replies := [Reply.cmdErr tok "Bot not connected to TeamTalk"]
        calls := [], warns := [] }
  | TTWorkerCommand.deleteUser _ tok =>
      { state := s
        replies := [Reply.cmdErr tok "Bot not connected to TeamTalk"]
        calls := [], warns := [] }
  | TTWorkerCommand.checkUserExists _ tok =>
      { state := s
        replies := [Reply.existsReply tok false]
        calls := [], warns := [] }
  | TTWorkerCommand.getAllUsers tok =>
      { state := s
        replies := [Reply.allUsersReply tok []]
        calls := [], warns := [] }
  | TTWorkerCommand.getOnlineUsers tok =>
      { state := s
        replies := [Reply.onlineReply tok []]
        calls := [], warns := [] }

/-- `handle_command_connected`: dispatch each command through the external
client (the oracle supplies the returned id and the server-user list). -/
def handle_command_connected (cmd : TTWorkerCommand) (oracle : ClientOracle)
    (broadcast_enabled : Bool) (s : WorkerState) : WOut :=
  match cmd with
  | TTWorkerCommand.createAccount username _ _ _ tok =>
      handle_create_account username tok oracle.cmdId broadcast_enabled s
  | TTWorkerCommand.deleteUser username tok =>
      handle_delete_user username tok oracle.cmdId s
  | TTWorkerCommand.getAllUsers tok =>
      handle_get_all_users tok oracle.cmdId s
  | TTWorkerCommand.checkUserExists username tok =>
      handle_check_user_exists username tok oracle.cmdId s
  | TTWorkerCommand.getOnlineUsers tok =>
      { state := s
        replies := [Reply.onlineReply tok (oracle.serverUsers.map toOnlineUser)]
        calls := [ClientCall.getServerUsers]
        warns := [] }

/-- `handle_command`: commands are dispatched only while logged in, else
rejected by `handle_command_disconnected`. -/
def handle_command (cmd : TTWorkerCommand) (oracle : ClientOracle)
    (broadcast_enabled : Bool) (s : WorkerState) : WOut :=
  if s.is_logged_in then handle_command_connected cmd oracle broadcast_enabled s
  else handle_command_disconnected cmd s

/-- The fixed grace window of `flush_completed_lists`
(`LIST_GRACE = Duration::from_millis(500)`), in milliseconds. -/
def LIST_GRACE : Nat := 500

/-- `respond_list_request`: an enumerate-all request resolves to the
accumulated names on success and to the empty list otherwise; an
existence check resolves to membership of the requested username in the
accumulated names, `false` on failure. -/
def respond_list_request (req : PendingListRequest) (success : Bool) : Reply :=
  match req.kind with
  | PendingListKind.allUsers tok =>
      Reply.allUsersReply tok (if success then req.accumulated else [])
  | PendingListKind.checkExists username tok =>
      Reply.existsReply tok (success && req.accumulated.contains username)

/-- `handle_connection_lost`: clear the logged-in flag, resolve every
pending command with a "Connection lost" error, resolve every pending
list request as failed, and leave both tables empty. -/
def handle_connection_lost (s : WorkerState) : WOut :=
  { state :=
      { is_logged_in := false
        pending_cmds := []
        pending_lists := [] }
    replies :=
      s.pending_cmds.map (fun p => Reply.cmdErr p.2.tok "Connection lost") ++
      s.pending_lists.map (fun p => respond_list_request p.2 false)
    calls := []
    warns := [] }

/-- `handle_cmd_success`: resolve and remove a matching pending command
with `Ok(true)`; stamp `completed_at` on a matching pending list request
whose stamp is still unset, keeping the entry alive. -/
def handle_cmd_success (source : Int) (now : Nat) (s : WorkerState) : WOut :=
  let cmdPart : AList Int PendingCommand × List Reply :=
    match alookup source s.pending_cmds with
    | some c => (aremove source s.pending_cmds, [Reply.cmdOk c.tok])
    | none => (s.pending_cmds, [])
  let lists' : AList Int PendingListRequest :=
    match alookup source s.pending_lists with
    | some req =>
        if req.completed_at = none then
          ainsert source { req with completed_at := some now } s.pending_lists
        else s.pending_lists
    | none => s.pending_lists
  { state := { s with pending_cmds := cmdPart.1, pending_lists := lists' }
    replies := cmdPart.2
    calls := []
    warns := [] }

/-- `handle_cmd_error`: resolve and remove a matching pending command with
a server error; resolve and remove a matching pending list request as
failed. -/
def handle_cmd_error (source : Int) (s : WorkerState) : WOut :=
  let cmdPart : AList Int PendingCommand × List Reply :=
    match alookup source s.pending_cmds with
    | some c => (aremove source s.pending_cmds,
        [Reply.cmdErr c.tok "Command failed on server"])
    | none => (s.pending_cmds, [])
  let listPart : AList Int PendingListRequest × List Reply :=
    match alookup source s.pending_lists with
    | some req => (aremove source s.pending_lists,
        [respond_list_request req false])
    | none => (s.pending_lists, [])
  { state := { s with pending_cmds := cmdPart.1, pending_lists := listPart.1 }
    replies := cmdPart.2 ++ listPart.2
    calls := []
    warns := [] }

/-- The update `handle_user_account` applies to a pending list request an
item is attributed to: push the username and, when the stream already
completed, bump `completed_at` to the arrival time. -/
def accountPush (username : String) (now : Nat) (setMismatch : Bool)
    (req : PendingListRequest) : PendingListRequest :=
  { req with
    accumulated := req.accumulated ++ [username]
    completed_at := if req.completed_at.isSome then some now else req.completed_at
    mismatch_logged := if setMismatch then true else req.mismatch_logged }

/-- `handle_user_account`: an item event.  If the source id matches a
pending list request, append there; otherwise, with exactly one request
pending, attribute the item to it (marking `mismatch_logged`); otherwise
drop the item with a warning. -/
def handle_user_account (source : Int) (account : Option String) (now : Nat)
    (s : WorkerState) : WOut :=
  match account with
  | none => { state := s, replies := [], calls := [], warns := [] }
  | some username =>
    match alookup source s.pending_lists with
    | some req =>
        let lists' := ainsert source (accountPush username now false req) s.pending_lists
        { state := { s with pending_lists := lists' }
          replies := [], calls := [], warns := [] }
    | none =>
      match s.pending_lists with
      | [(pending_id, req)] =>
          let lists' := [(pending_id, accountPush username now true req)]
          { state := { s with pending_lists := lists' }
            replies := [], calls := [], warns := [] }
      | _ =>
          { state := s, replies := [], calls := []
            warns := ["Received user account without pending list request"] }

/-- Whether a pending list request's grace window has elapsed at `now`
(the sweep condition of `flush_completed_lists`). -/
def listDue (now : Nat) (req : PendingListRequest) : Bool :=
  match req.completed_at with
  | some completed_at => LIST_GRACE ≤ now - completed_at
  | none => false

/-- `flush_completed_lists`: remove every entry whose completion stamp is
at least `LIST_GRACE` in the past and resolve it as successful. -/
def flush_completed_lists (now : Nat) (s : WorkerState) : WOut :=
  let kept := s.pending_lists.filter (fun p => !(listDue now p.2))
  { state := { s with pending_lists := kept }
    replies :=
      (s.pending_lists.filter (fun p => listDue now p.2)).map
        (fun p => respond_list_request p.2 true)
    calls := []
    warns := [] }

/-- The events of the worker loop's poll phase (`Event` from the teamtalk
crate, restricted to the arms `run_tt_loop` matches on).  `userAccount*`
events carry `msg.account()` as an optional username. -/
inductive TTEvent : Type
  | connectSuccess
  | connectFailed
  | connectionLost
  | myselfLoggedIn
  | cmdSuccess (source : Int)
  | cmdError (source : Int)
  | userAccount (source : Int) (account : Option String)
  | userAccountCreated (account : Option String)
  | userAccountRemoved (account : Option String)
  | otherEvent
  deriving DecidableEq, Repr

/-- Event dispatch of `run_tt_loop`'s poll loop, restricted to the state
the correlation/aggregation claims are about.  `userAccountCreated` and
`userAccountRemoved` feed the lifecycle debouncer, whose separate state
(`pending_deletions`) is modelled below; they do not touch the worker
tables. -/
def stepEvent (e : TTEvent) (now : Nat) (s : WorkerState) : WOut :=
  match e with
  | TTEvent.connectSuccess =>
      { state := s, replies := [], calls := [ClientCall.login], warns := [] }
  | TTEvent.connectFailed => handle_connection_lost s
  | TTEvent.connectionLost => handle_connection_lost s
  | TTEvent.myselfLoggedIn =>
      { state := { s with is_logged_in := true }
        replies := []
        calls := [ClientCall.setStatus, ClientCall.subscribe]
        warns := [] }
  | TTEvent.cmdSuccess source => handle_cmd_success source now s
  | TTEvent.cmdError source => handle_cmd_error source s
  | TTEvent.userAccount source account => handle_user_account source account now s
  | TTEvent.userAccountCreated _ =>
      { state := s, replies := [], calls := [], warns := [] }
  | TTEvent.userAccountRemoved _ =>
      { state := s, replies := [], calls := [], warns := [] }
  | TTEvent.otherEvent =>
      { state := s, replies := [], calls := [], warns := [] }

/-- One observable action of the worker loop: processing an inbound
command (with the client oracle for that call), processing one polled
event at a given instant, or running the completion sweep at a given
instant. -/
inductive WAction : Type
  | cmdA (cmd : TTWorkerCommand) (oracle : ClientOracle) (broadcast_enabled : Bool)
  | evA (e : TTEvent) (now : Nat)
  | flushA (now : Nat)
  deriving DecidableEq, Repr

/-- One step of the worker loop on an action. -/
def stepW (a : WAction) (s : WorkerState) : WOut :=
  match a with
  | WAction.cmdA cmd oracle broadcast_enabled =>
      handle_command cmd oracle broadcast_enabled s
  | WAction.evA e now => stepEvent e now s
  | WAction.flushA now => flush_completed_lists now s

/-- Run a sequence of worker actions, accumulating the replies sent. -/
def runW : List WAction → WorkerState → WorkerState × List Reply
  | [], s => (s, [])
  | a :: tr, s =>
      let o := stepW a s
      let rest := runW tr o.state
      (rest.1, o.replies ++ rest.2)

/-
Lifecycle debouncer (`handle_user_account_created` /
`handle_user_account_removed` and the spawned finalization tasks).

The Rust code schedules a tokio task per removal event that sleeps two
seconds and then finalizes; a creation event for the same username aborts
the task whose `AbortHandle` is stored in `pending_deletions`.  The model
treats handler execution and task finalization as atomic steps processed
in timestamp order (the linearization the specification's concurrency
section assumes), with time in milliseconds.  The registration registry
(`db.get_registration_by_tt_username`) is an external collaborator,
passed as a lookup function from usernames to optional Telegram ids.
-/

/-- The debounce delay of the removal finalization task
(`tokio::time::sleep(Duration::from_secs(2))`), in milliseconds. -/
def DEBOUNCE_DELAY : Nat := 2000

/-- One scheduled finalization task: its identity (the `AbortHandle` it
was spawned with), the username it finalizes, and the instant its sleep
elapses. -/
structure DebTask where
  tid : Nat
  username : String
  fire_at : Nat
  deriving DecidableEq, Repr

/-- Debouncer state: the `pending_deletions` map (username to the task id
whose abort handle is stored), the scheduled tasks that are neither
fired nor aborted, and a counter issuing task ids. -/
structure DebState where
  pending_deletions : AList String Nat
  alive : List DebTask
  next_tid : Nat
  deriving DecidableEq, Repr

/-- The debouncer's empty initial state. -/
def emptyDeb : DebState :=
  { pending_deletions := [], alive := [], next_tid := 0 }

/-- Observable debouncer outputs: admin notifications (by localization
key) and the ban record written to the registry. -/
inductive DebOutput : Type
  | notifCreated (username : String)
  | notifChanged (username : String)
  | notifRemoved (username : String)
  | notifRemovedBanned (username : String) (telegram_id : Int)
  | notifRemovedNoLink (username : String)
  | banRecorded (username : String) (telegram_id : Int) (reason : String)
  deriving DecidableEq, Repr

/-- `handle_user_account_removed`: spawn a finalization task due
`DEBOUNCE_DELAY` after the event and store its abort handle in
`pending_deletions`, replacing any handle already stored for that
username (the replaced task is not aborted). -/
def handle_user_account_removed (account : Option String) (now : Nat)
    (s : DebState) : DebState × List DebOutput :=
  match account with
  | none => (s, [])
  | some u =>
      (({ pending_deletions := ainsert u s.next_tid s.pending_deletions
          alive := s.alive ++ [{ tid := s.next_tid, username := u, fire_at := now + DEBOUNCE_DELAY }]
          next_tid := s.next_tid + 1 } : DebState), [])

/-- `handle_user_account_created`: ignored unless logged in; if an abort
handle for the username is stored, remove it, abort that task and notify
"account changed", otherwise notify "account created". -/
def handle_user_account_created (account : Option String) (is_logged_in : Bool)
    (s : DebState) : DebState × List DebOutput :=
  if !is_logged_in then (s, [])
  else
    match account with
    | none => (s, [])
    | some u =>
        match alookup u s.pending_deletions with
        | some tid =>
            (({ pending_deletions := aremove u s.pending_deletions
                alive := s.alive.filter (fun tk => tk.tid ≠ tid)
                next_tid := s.next_tid } : DebState), [DebOutput.notifChanged u])
        | none => (s, [DebOutput.notifCreated u])

/-- The body of the spawned finalization task, run when its sleep elapses
uncancelled: remove the username's `pending_deletions` entry, notify
"account removed", then either record a ban and notify "removed and
banned" (registry link found) or notify "removed, no linked
registration". -/
def fire_task (registry : String → Option Int) (tk : DebTask)
    (s : DebState) : DebState × List DebOutput :=
  let s1 : DebState :=
    { pending_deletions := aremove tk.username s.pending_deletions
      alive := s.alive.filter (fun t => t.tid ≠ tk.tid)
      next_tid := s.next_tid }
  let tail : List DebOutput :=
    match registry tk.username with
    | some tg =>
        [DebOutput.banRecorded tk.username tg "Account deleted from TeamTalk server",
         DebOutput.notifRemovedBanned tk.username tg]
    | none => [DebOutput.notifRemovedNoLink tk.username]
  (s1, DebOutput.notifRemoved tk.username :: tail)

/-- Fire the listed tasks in order, skipping any that is no longer alive
(tasks aborted or already fired never run). -/
def fire_list (registry : String → Option Int) (tasks : List DebTask)
    (s : DebState) : DebState × List DebOutput :=
  match tasks with
  | [] => (s, [])
  | tk :: rest =>
      if s.alive.any (fun t => t.tid = tk.tid) then
        let o1 := fire_task registry tk s
        let o2 := fire_list registry rest o1.1
        (o2.1, o1.2 ++ o2.2)
      else fire_list registry rest s

/-- Fire every alive task whose sleep has elapsed by instant `t`. -/
def fire_due (registry : String → Option Int) (t : Nat)
    (s : DebState) : DebState × List DebOutput :=
  fire_list registry (s.alive.filter (fun tk => tk.fire_at ≤ t)) s

/-- The external account-lifecycle events fed to the debouncer (with the
worker's `is_logged_in` flag at the time a creation event is handled). -/
inductive DebExt : Type
  | removedEv (account : Option String)
  | createdEv (account : Option String) (is_logged_in : Bool)
  deriving DecidableEq, Repr

/-- Process one external lifecycle event at instant `t`. -/
def stepDebExt (e : DebExt) (t : Nat) (s : DebState) : DebState × List DebOutput :=
  match e with
  | DebExt.removedEv account => handle_user_account_removed account t s
  | DebExt.createdEv account lg => handle_user_account_created account lg s

/-- Process timestamped lifecycle events in order, firing every task that
falls due before each event; scheduled tasks still alive at the end are
left in the state. -/
def runDebEvents (registry : String → Option Int) :
    List (Nat × DebExt) → DebState → DebState × List DebOutput
  | [], s => (s, [])
  | (t, e) :: rest, s =>
      let o1 := fire_due registry t s
      let o2 := stepDebExt e t o1.1
      let o3 := runDebEvents registry rest o2.1
      (o3.1, o1.2 ++ o2.2 ++ o3.2)

/-- A complete debouncer run: process the events, then let every
remaining scheduled task fire. -/
def runDeb (registry : String → Option Int) (evs : List (Nat × DebExt))
    (s : DebState) : DebState × List DebOutput :=
  let o1 := runDebEvents registry evs s
  let o2 := fire_list registry o1.1.alive o1.1
  (o2.1, o1.2 ++ o2.2)

/-- Whether a reply is a resolution of the command reply slot with token
`T` (a send on a `Sender<Result<bool, String>>`). -/
def isCmdReplyTo (T : Nat) : Reply → Bool
  | Reply.cmdOk tok => tok == T
  | Reply.cmdErr tok _ => tok == T
  | _ => false

/-- Number of resolutions of command slot `T` among the emitted replies. -/
def cmdResolutions (T : Nat) (rs : List Reply) : Nat :=
  (rs.filter (isCmdReplyTo T)).length

/-- The entries of the pending-command table holding slot token `T`. -/
def cmdTokenEntries (T : Nat) (m : AList Int PendingCommand) :
    AList Int PendingCommand :=
  m.filter (fun p => p.2.tok == T)

/-- The reply-slot token carried by a command. -/
def cmdToken : TTWorkerCommand → Nat
  | TTWorkerCommand.createAccount _ _ _ _ tok => tok
  | TTWorkerCommand.checkUserExists _ tok => tok
  | TTWorkerCommand.getOnlineUsers tok => tok
  | TTWorkerCommand.getAllUsers tok => tok
  | TTWorkerCommand.deleteUser _ tok => tok

/-- Freshness discipline for observing one pending command: later actions
use neither its slot token nor its correlation id (reply slots are
single-use and the client issues fresh ids). -/
def avoidsCmd (T : Nat) (X : Int) : WAction → Prop
  | WAction.cmdA c oracle _ => cmdToken c ≠ T ∧ oracle.cmdId ≠ X
  | _ => True

/-- The events that resolve the pending command registered under id `X`:
its terminal success, its terminal error, or a connection-lost (or
connect-failed) event. -/
def triggersCmd (X : Int) : WAction → Bool
  | WAction.evA TTEvent.connectFailed _ => true
  | WAction.evA TTEvent.connectionLost _ => true
  | WAction.evA (TTEvent.cmdSuccess i) _ => i == X
  | WAction.evA (TTEvent.cmdError i) _ => i == X
  | _ => false

/-
Spec-side reply characterizations.  These are written from the
specification's words (error taxonomy in spec section 7, resolution
mapping in spec section 4.3) and compared against the code's behaviour.
-/

/-- The typed connectivity failure of the specification's error taxonomy,
per command kind: create/delete slots carry an error, an existence check
resolves to false, list slots resolve to the empty list. -/
def connectivityFailure : TTWorkerCommand → Reply
  | TTWorkerCommand.createAccount _ _ _ _ tok =>
      Reply.cmdErr tok "Bot not connected to TeamTalk"
  | TTWorkerCommand.deleteUser _ tok =>
      Reply.cmdErr tok "Bot not connected to TeamTalk"
  | TTWorkerCommand.checkUserExists _ tok => Reply.existsReply tok false
  | TTWorkerCommand.getAllUsers tok => Reply.allUsersReply tok []
  | TTWorkerCommand.getOnlineUsers tok => Reply.onlineReply tok []

/-- The typed dispatch failure of the specification's error taxonomy for
the four dispatched command kinds (`GetOnlineUsers` performs no
id-returning dispatch, so it has none). -/
def dispatchFailure : TTWorkerCommand → Option Reply
  | TTWorkerCommand.createAccount _ _ _ _ tok =>
      some (Reply.cmdErr tok "Client error dispatching command")
  | TTWorkerCommand.deleteUser _ tok =>
      some (Reply.cmdErr tok "Failed to dispatch command")
  | TTWorkerCommand.checkUserExists _ tok => some (Reply.existsReply tok false)
  | TTWorkerCommand.getAllUsers tok => some (Reply.allUsersReply tok [])
  | TTWorkerCommand.getOnlineUsers _ => none

/-- The connectivity-failure resolution of a list request per the
specification: empty list for enumerate-all, `false` for an existence
check. -/
def listFailureReply : PendingListKind → Reply
  | PendingListKind.allUsers tok => Reply.allUsersReply tok []
  | PendingListKind.checkExists _ tok => Reply.existsReply tok false

/-- Looking up a key just inserted finds the inserted value. -/
theorem alookup_ainsert_self {α : Type} {κ : Type} [DecidableEq κ]
    (k : κ) (v : α) (m : AList κ α) :
    alookup k (ainsert k v m) = some v := by
  induction m with
  | nil => simp [ainsert, alookup]
  | cons hd tl ih =>
    by_cases h : hd.1 = k
    · simp [ainsert, alookup, h]
    · simp [ainsert, alookup, h, ih]

/-- Inserting under a different key does not change a lookup. -/
theorem alookup_ainsert_ne {α : Type} {κ : Type} [DecidableEq κ]
    {k' k : κ} (h : k' ≠ k) (v : α) (m : AList κ α) :
    alookup k (ainsert k' v m) = alookup k m := by
  have h' : k ≠ k' := Ne.symm h
  induction m with
  | nil => simp [ainsert, alookup, h]
  | cons hd tl ih =>
    by_cases h1 : hd.1 = k'
    · simp [ainsert, alookup, h1, h, h']
    · by_cases h2 : hd.1 = k <;> simp [ainsert, alookup, h1, h2, h, h', ih]

/-- Removing a different key does not change a lookup. -/
theorem alookup_aremove_ne {α : Type} {κ : Type} [DecidableEq κ]
    {k' k : κ} (h : k' ≠ k) (m : AList κ α) :
    alookup k (aremove k' m) = alookup k m := by
  have h' : k ≠ k' := Ne.symm h
  induction m with
  | nil => rfl
  | cons hd tl ih =>
    by_cases h1 : hd.1 = k'
    · have h2 : hd.1 ≠ k := by rw [h1]; exact h
      simp [aremove, alookup, h1, h2, h, h', ih]
    · by_cases h2 : hd.1 = k <;> simp [aremove, alookup, h1, h2, h, h', ih]

/-- A successful lookup exhibits a member of the association list. -/
theorem alookup_mem {α : Type} {κ : Type} [DecidableEq κ]
    {k : κ} {v : α} {m : AList κ α} (h : alookup k m = some v) :
    (k, v) ∈ m := by
  induction m with
  | nil => simp [alookup] at h
  | cons hd tl ih =>
    obtain ⟨k0, v0⟩ := hd
    by_cases h1 : k0 = k
    · subst h1
      simp only [alookup, if_pos] at h
      obtain rfl : v0 = v := by injection h
      exact List.mem_cons_self _ _
    · simp only [alookup, h1, if_false] at h
      exact List.mem_cons_of_mem _ (ih h)

/-- A failed list request resolves to its kind's connectivity-failure
value regardless of what was accumulated. -/
theorem respond_list_request_false (req : PendingListRequest) :
    respond_list_request req false = listFailureReply req.kind := by
  cases h : req.kind <;> simp [respond_list_request, listFailureReply, h]

/-- C9: a command processed while not logged in makes no client call,
leaves the worker state unchanged, and is resolved immediately with its
typed connectivity failure. -/
theorem c9_not_logged_in_rejects_without_dispatch
    (cmd : TTWorkerCommand) (oracle : ClientOracle) (bc : Bool)
    (s : WorkerState) (h : s.is_logged_in = false) :
    handle_command cmd oracle bc s =
      { state := s, replies := [connectivityFailure cmd], calls := [], warns := [] } := by
  cases cmd <;> simp [handle_command, h, handle_command_disconnected, connectivityFailure]

/-- Witness for C9 at a concrete disconnected state and command. -/
theorem c9_witness :
    handle_command (TTWorkerCommand.getAllUsers 5) ⟨7, []⟩ false
        { is_logged_in := false, pending_cmds := [], pending_lists := [] } =
      { state := { is_logged_in := false, pending_cmds := [], pending_lists := [] }
        replies := [Reply.allUsersReply 5 []], calls := [], warns := [] } := by
  exact c9_not_logged_in_rejects_without_dispatch
    (TTWorkerCommand.getAllUsers 5) ⟨7, []⟩ false _ rfl

/-- C4: a dispatched command for which the client returns a non-positive
id is resolved with its typed dispatch failure within the same call, and
neither correlation table gains an entry (the state is unchanged). -/
theorem c4_nonpositive_id_dispatch_failure
    (cmd : TTWorkerCommand) (oracle : ClientOracle) (bc : Bool)
    (s : WorkerState) (r : Reply)
    (hlg : s.is_logged_in = true) (hid : oracle.cmdId ≤ 0)
    (hr : dispatchFailure cmd = some r) :
    (handle_command cmd oracle bc s).state = s ∧
    (handle_command cmd oracle bc s).replies = [r] := by
  have hpos : ¬ oracle.cmdId > 0 := by omega
  cases cmd <;>
    simp only [dispatchFailure, Option.some.injEq, reduceCtorEq] at hr <;>
    subst hr <;>
    simp [handle_command, handle_command_connected, handle_create_account,
      handle_delete_user, handle_get_all_users, handle_check_user_exists,
      hlg, hpos]

/-- Witness for C4: a create-account dispatch that returns id 0. -/
theorem c4_witness :
    (handle_command (TTWorkerCommand.createAccount "u" "p" "n" TTAccountType.default_ 3)
        ⟨0, []⟩ true { is_logged_in := true, pending_cmds := [], pending_lists := [] }).state =
      { is_logged_in := true, pending_cmds := [], pending_lists := [] } ∧
    (handle_command (TTWorkerCommand.createAccount "u" "p" "n" TTAccountType.default_ 3)
        ⟨0, []⟩ true { is_logged_in := true, pending_cmds := [], pending_lists := [] }).replies =
      [Reply.cmdErr 3 "Client error dispatching command"] := by
  exact c4_nonpositive_id_dispatch_failure _ _ _ _ _ rfl (by decide) rfl

/-- C3: a connect-failed or connection-lost event resolves every pending
command with a "Connection lost" error and every pending list request
with its kind's connectivity-failure value — K+M immediate resolutions,
independent of any grace window — and leaves both tables empty. -/
theorem c3_connection_lost_resolves_everything
    (e : TTEvent) (now : Nat) (s : WorkerState)
    (he : e = TTEvent.connectFailed ∨ e = TTEvent.connectionLost) :
    (stepEvent e now s).state.pending_cmds = [] ∧
    (stepEvent e now s).state.pending_lists = [] ∧
    (stepEvent e now s).state.is_logged_in = false ∧
    (stepEvent e now s).replies =
      s.pending_cmds.map (fun p => Reply.cmdErr p.2.tok "Connection lost") ++
      s.pending_lists.map (fun p => listFailureReply p.2.kind) ∧
    (stepEvent e now s).replies.length =
      s.pending_cmds.length + s.pending_lists.length := by
  have hmap : s.pending_lists.map (fun p => respond_list_request p.2 false) =
      s.pending_lists.map (fun p => listFailureReply p.2.kind) :=
    List.map_congr_left fun p _ => respond_list_request_false p.2
  rcases he with he | he <;> subst he <;>
    simp [stepEvent, handle_connection_lost, hmap]

/-- Witness for C3: connection lost with two pending commands and two
pending list requests resolves all four and empties the tables. -/
theorem c3_witness :
    (stepEvent TTEvent.connectionLost 9
        { is_logged_in := true
          pending_cmds := [(1, ⟨10⟩), (2, ⟨11⟩)]
          pending_lists :=
            [(3, ⟨PendingListKind.allUsers 12, ["a"], none, false⟩),
             (4, ⟨PendingListKind.checkExists "bob" 13, ["bob"], some 0, false⟩)] }).state.pending_cmds = [] ∧
    (stepEvent TTEvent.connectionLost 9
        { is_logged_in := true
          pending_cmds := [(1, ⟨10⟩), (2, ⟨11⟩)]
          pending_lists :=
            [(3, ⟨PendingListKind.allUsers 12, ["a"], none, false⟩),
             (4, ⟨PendingListKind.checkExists "bob" 13, ["bob"], some 0, false⟩)] }).replies.length = 2 + 2 := by
  refine ⟨(c3_connection_lost_resolves_everything TTEvent.connectionLost 9 _ (Or.inr rfl)).1, ?_⟩
  exact (c3_connection_lost_resolves_everything TTEvent.connectionLost 9 _ (Or.inr rfl)).2.2.2.2

/-- C5: an item event whose id matches no pending list request is
attributed to the single pending request when exactly one is pending
(appended to its accumulated list), and otherwise dropped with a
warning, leaving the state unchanged. -/
theorem c5_single_pending_heuristic
    (source : Int) (username : String) (now : Nat) (s : WorkerState)
    (hmiss : alookup source s.pending_lists = none) :
    (∀ pending_id req, s.pending_lists = [(pending_id, req)] →
      (handle_user_account source (some username) now s).state.pending_lists =
        [(pending_id, accountPush username now true req)] ∧
      (handle_user_account source (some username) now s).warns = []) ∧
    (s.pending_lists.length ≠ 1 →
      (handle_user_account source (some username) now s).state = s ∧
      (handle_user_account source (some username) now s).warns =
        ["Received user account without pending list request"]) := by
  constructor
  · intro pending_id req hone
    rw [hone] at hmiss
    simp [handle_user_account, hone, hmiss]
  · intro hlen
    cases hl : s.pending_lists with
    | nil => simp [handle_user_account, alookup, hl]
    | cons hd tl =>
      cases tl with
      | nil => exact absurd (by rw [hl]; rfl) hlen
      | cons hd2 tl2 =>
        rw [hl] at hmiss
        simp [handle_user_account, hmiss, hl]

/-- Witness for C5: item id 5 matches nothing; with exactly one pending
request the item is appended to it; (second conjunct is vacuous here). -/
theorem c5_witness :
    (handle_user_account 5 (some "bob") 9
        { is_logged_in := true, pending_cmds := []
          pending_lists := [(3, ⟨PendingListKind.allUsers 12, ["a"], none, false⟩)] }).state.pending_lists =
      [(3, accountPush "bob" 9 true ⟨PendingListKind.allUsers 12, ["a"], none, false⟩)] ∧
    (handle_user_account 5 (some "bob") 9
        { is_logged_in := true, pending_cmds := []
          pending_lists := [(3, ⟨PendingListKind.allUsers 12, ["a"], none, false⟩)] }).warns = [] := by
  have h := c5_single_pending_heuristic 5 "bob" 9
    { is_logged_in := true, pending_cmds := []
      pending_lists := [(3, ⟨PendingListKind.allUsers 12, ["a"], none, false⟩)] } (by decide)
  exact h.1 3 _ rfl

/-- C6: a terminal success for a pending list request stamps the
completion time without resolving or removing the entry, and an item
event arriving after that success is still appended and moves the
completion stamp to its own arrival time. -/
theorem c6_success_keeps_entry_late_items_append
    (source : Int) (req : PendingListRequest) (t tLate : Nat)
    (username : String) (s : WorkerState)
    (hreq : alookup source s.pending_lists = some req)
    (hfresh : req.completed_at = none)
    (hnocmd : alookup source s.pending_cmds = none) :
    (handle_cmd_success source t s).replies = [] ∧
    alookup source (handle_cmd_success source t s).state.pending_lists =
      some { req with completed_at := some t } ∧
    (handle_user_account source (some username) tLate
        (handle_cmd_success source t s).state).replies = [] ∧
    alookup source
        (handle_user_account source (some username) tLate
          (handle_cmd_success source t s).state).state.pending_lists =
      some { req with accumulated := req.accumulated ++ [username]
                      completed_at := some tLate } := by
  have hstep : (handle_cmd_success source t s).state.pending_lists =
      ainsert source { req with completed_at := some t } s.pending_lists := by
    simp [handle_cmd_success, hreq, hfresh]
  have hlook2 : alookup source (handle_cmd_success source t s).state.pending_lists =
      some { req with completed_at := some t } := by
    rw [hstep]; exact alookup_ainsert_self source _ s.pending_lists
  refine ⟨by simp [handle_cmd_success, hreq, hnocmd], hlook2, ?_, ?_⟩
  · simp [handle_user_account, hlook2]
  · simp only [handle_user_account, hlook2]
    rw [alookup_ainsert_self]
    simp [accountPush]

/-- Witness for C6 at a concrete pending request. -/
theorem c6_witness :
    (handle_cmd_success 8 50
        { is_logged_in := true, pending_cmds := []
          pending_lists := [(8, ⟨PendingListKind.allUsers 2, ["a"], none, false⟩)] }).replies = [] ∧
    alookup 8 (handle_cmd_success 8 50
        { is_logged_in := true, pending_cmds := []
          pending_lists := [(8, ⟨PendingListKind.allUsers 2, ["a"], none, false⟩)] }).state.pending_lists =
      some ⟨PendingListKind.allUsers 2, ["a"], some 50, false⟩ ∧
    (handle_user_account 8 (some "z") 70
        (handle_cmd_success 8 50
          { is_logged_in := true, pending_cmds := []
            pending_lists := [(8, ⟨PendingListKind.allUsers 2, ["a"], none, false⟩)] }).state).replies = [] ∧
    alookup 8 (handle_user_account 8 (some "z") 70
        (handle_cmd_success 8 50
          { is_logged_in := true, pending_cmds := []
            pending_lists := [(8, ⟨PendingListKind.allUsers 2, ["a"], none, false⟩)] }).state).state.pending_lists =
      some ⟨PendingListKind.allUsers 2, ["a", "z"], some 70, false⟩ := by
  exact c6_success_keeps_entry_late_items_append 8
    ⟨PendingListKind.allUsers 2, ["a"], none, false⟩ 50 70 "z" _ rfl rfl rfl

/-- Running a concatenation of action lists runs them in sequence. -/
theorem runW_append (t1 t2 : List WAction) (s : WorkerState) :
    runW (t1 ++ t2) s =
      ((runW t2 (runW t1 s).1).1, (runW t1 s).2 ++ (runW t2 (runW t1 s).1).2) := by
  induction t1 generalizing s with
  | nil => simp [runW]
  | cons a tr ih => simp [runW, ih]

/-- Item events matching the single pending list request with id `X` and
no completion stamp append the items in arrival order, emit nothing, and
leave the stamp unset. -/
theorem runW_items (items : List String) (X : Int) (kind : PendingListKind)
    (acc : List String) (ml lg : Bool) (pcmds : AList Int PendingCommand) (tI : Nat) :
    runW (items.map fun it => WAction.evA (TTEvent.userAccount X (some it)) tI)
        { is_logged_in := lg, pending_cmds := pcmds
          pending_lists := [(X, ⟨kind, acc, none, ml⟩)] }
    = ({ is_logged_in := lg, pending_cmds := pcmds
         pending_lists := [(X, ⟨kind, acc ++ items, none, ml⟩)] }, []) := by
  induction items generalizing acc with
  | nil => simp [runW]
  | cons it rest ih =>
    have hstep : stepW (WAction.evA (TTEvent.userAccount X (some it)) tI)
        { is_logged_in := lg, pending_cmds := pcmds
          pending_lists := [(X, ⟨kind, acc, none, ml⟩)] }
        = { state :=
              { is_logged_in := lg
                pending_cmds := pcmds
                pending_lists := [(X, ⟨kind, acc ++ [it], none, ml⟩)] }
            replies := [], calls := [], warns := [] } := by
      simp [stepW, stepEvent, handle_user_account, alookup, ainsert, accountPush]
    have hacc : acc ++ it :: rest = (acc ++ [it]) ++ rest := by simp
    simp only [List.map_cons, runW, hstep, hacc, ih]
    simp

/-- C2: dispatching an enumerate-all command that gets id `X`, receiving
item events `e1..eN` for `X`, then a terminal success for `X`, and
sweeping once the grace window has elapsed with no further event for `X`
resolves the request to exactly the received items in order (the empty
list when no items arrived), and removes the entry. -/
theorem c2_list_aggregation_in_order
    (tok : Nat) (X : Int) (items : List String) (su : List ServerUser) (bc : Bool)
    (tI t tFlush : Nat) (pcmds : AList Int PendingCommand)
    (hX : X > 0) (hnocmd : alookup X pcmds = none)
    (hgrace : t + LIST_GRACE ≤ tFlush) :
    runW (WAction.cmdA (TTWorkerCommand.getAllUsers tok) ⟨X, su⟩ bc ::
          ((items.map fun it => WAction.evA (TTEvent.userAccount X (some it)) tI) ++
           [WAction.evA (TTEvent.cmdSuccess X) t, WAction.flushA tFlush]))
        { is_logged_in := true, pending_cmds := pcmds, pending_lists := [] }
    = ({ is_logged_in := true, pending_cmds := pcmds, pending_lists := [] },
       [Reply.allUsersReply tok items]) := by
  have hstep1 : stepW (WAction.cmdA (TTWorkerCommand.getAllUsers tok) ⟨X, su⟩ bc)
      { is_logged_in := true, pending_cmds := pcmds, pending_lists := [] }
      = { state :=
            { is_logged_in := true
              pending_cmds := pcmds
              pending_lists := [(X, ⟨PendingListKind.allUsers tok, [], none, false⟩)] }
          replies := [], calls := [ClientCall.listUserAccounts 0 10000], warns := [] } := by
    simp [stepW, handle_command, handle_command_connected, handle_get_all_users, hX, ainsert]
  have hsucc : stepW (WAction.evA (TTEvent.cmdSuccess X) t)
      { is_logged_in := true, pending_cmds := pcmds
        pending_lists := [(X, ⟨PendingListKind.allUsers tok, items, none, false⟩)] }
      = { state :=
            { is_logged_in := true
              pending_cmds := pcmds
              pending_lists := [(X, ⟨PendingListKind.allUsers tok, items, some t, false⟩)] }
          replies := [], calls := [], warns := [] } := by
    simp [stepW, stepEvent, handle_cmd_success, hnocmd, alookup, ainsert]
  have hdue : listDue tFlush ⟨PendingListKind.allUsers tok, items, some t, false⟩ = true := by
    simp only [listDue]
    simp only [decide_eq_true_eq]
    omega
  have hflush : stepW (WAction.flushA tFlush)
      { is_logged_in := true, pending_cmds := pcmds
        pending_lists := [(X, ⟨PendingListKind.allUsers tok, items, some t, false⟩)] }
      = { state :=
            { is_logged_in := true
              pending_cmds := pcmds
              pending_lists := [] }
          replies := [Reply.allUsersReply tok items], calls := [], warns := [] } := by
    simp [stepW, flush_completed_lists, hdue, respond_list_request]
  simp only [runW, hstep1, runW_append, runW_items, List.nil_append, List.append_nil]
  rw [hsucc, hflush]
  simp

/-- Witness for C2: the specification's example scenario (id 42, items
"x" then "y", success, sweep after the grace window) resolves to
`["x", "y"]`. -/
theorem c2_witness :
    runW (WAction.cmdA (TTWorkerCommand.getAllUsers 7) ⟨42, []⟩ false ::
          (([("x" : String), "y"].map fun it =>
              WAction.evA (TTEvent.userAccount 42 (some it)) 0) ++
           [WAction.evA (TTEvent.cmdSuccess 42) 0, WAction.flushA 500]))
        { is_logged_in := true, pending_cmds := [], pending_lists := [] }
    = ({ is_logged_in := true, pending_cmds := [], pending_lists := [] },
       [Reply.allUsersReply 7 ["x", "y"]]) := by
  exact c2_list_aggregation_in_order 7 42 ["x", "y"] [] false 0 0 500 []
    (by decide) rfl (by decide)

/-- C7: a removal event for a username followed within the debounce
window by a creation event for the same username produces exactly one
"account changed" notification and no "removed" or "banned"
notification, and the scheduled finalization task is cancelled (no task
remains alive to fire). -/
theorem c7_debounce_cancels_removal
    (u : String) (t0 t1 : Nat) (registry : String → Option Int)
    (h01 : t0 ≤ t1) (h1 : t1 < t0 + DEBOUNCE_DELAY) :
    runDeb registry
        [(t0, DebExt.removedEv (some u)), (t1, DebExt.createdEv (some u) true)]
        emptyDeb
    = ({ pending_deletions := [], alive := [], next_tid := 1 },
       [DebOutput.notifChanged u]) := by
  have hnot : ¬ (t0 + DEBOUNCE_DELAY ≤ t1) := by omega
  simp [runDeb, runDebEvents, fire_due, fire_list, stepDebExt,
    handle_user_account_removed, handle_user_account_created, emptyDeb,
    ainsert, aremove, alookup, hnot]

/-- Witness for C7: removal of "alice" at 0 ms, creation at 100 ms. -/
theorem c7_witness :
    runDeb (fun _ => none)
        [(0, DebExt.removedEv (some "alice")), (100, DebExt.createdEv (some "alice") true)]
        emptyDeb
    = ({ pending_deletions := [], alive := [], next_tid := 1 },
       [DebOutput.notifChanged "alice"]) := by
  exact c7_debounce_cancels_removal "alice" 0 100 (fun _ => none)
    (by decide) (by decide)

/-- C8: a removal event with no subsequent creation event finalizes
exactly once — one "account removed" notification, then either a ban
record plus a "removed and banned" notification (registry link present)
or a single "removed, no linked registration" notification (no link) —
and the pending-deletion entry is removed. -/
theorem c8_uncancelled_removal_finalizes_once
    (u : String) (t0 : Nat) (registry : String → Option Int) :
    runDeb registry [(t0, DebExt.removedEv (some u))] emptyDeb
    = ({ pending_deletions := [], alive := [], next_tid := 1 },
       DebOutput.notifRemoved u ::
         (match registry u with
          | some tg => [DebOutput.banRecorded u tg "Account deleted from TeamTalk server",
                        DebOutput.notifRemovedBanned u tg]
          | none => [DebOutput.notifRemovedNoLink u])) := by
  cases hreg : registry u <;>
    simp [runDeb, runDebEvents, fire_due, fire_list, fire_task, stepDebExt,
      handle_user_account_removed, emptyDeb, ainsert, aremove, alookup, hreg]

/-- C10 counterexample: two removal events for "alice" arriving within
one debounce window leave TWO scheduled finalization tasks alive (the
second insert replaces the stored abort handle without aborting the
first task), and the full run emits the "account removed" notification
twice. -/
theorem c10_counterexample :
    (runDebEvents (fun _ => none)
        [(0, DebExt.removedEv (some "alice")), (1000, DebExt.removedEv (some "alice"))]
        emptyDeb).1.alive =
      [⟨0, "alice", DEBOUNCE_DELAY⟩, ⟨1, "alice", 1000 + DEBOUNCE_DELAY⟩] ∧
    ((runDeb (fun _ => none)
        [(0, DebExt.removedEv (some "alice")), (1000, DebExt.removedEv (some "alice"))]
        emptyDeb).2.filter (fun o => o = DebOutput.notifRemoved "alice")).length = 2 := by
  constructor <;> rfl

/-- C10 as amended: at most one pending-deletion MAP ENTRY exists per
username at a time (a second removal replaces the stored abort handle),
but the replaced task is not cancelled: a second removal event for the
same username before the first task fires leaves both scheduled
finalization tasks alive. -/
theorem c10_amended_one_entry_but_two_tasks
    (u : String) (t0 t1 : Nat) (registry : String → Option Int)
    (h01 : t0 ≤ t1) (h1 : t1 < t0 + DEBOUNCE_DELAY) :
    (runDebEvents registry
        [(t0, DebExt.removedEv (some u)), (t1, DebExt.removedEv (some u))]
        emptyDeb).1
    = { pending_deletions := [(u, 1)]
        alive := [⟨0, u, t0 + DEBOUNCE_DELAY⟩, ⟨1, u, t1 + DEBOUNCE_DELAY⟩]
        next_tid := 2 } := by
  have hnot : ¬ (t0 + DEBOUNCE_DELAY ≤ t1) := by omega
  simp [runDebEvents, fire_due, fire_list, stepDebExt,
    handle_user_account_removed, emptyDeb, ainsert, alookup, hnot]

/-- Witness for the amended C10 at concrete times 0 ms and 1000 ms. -/
theorem c10_amended_witness :
    (runDebEvents (fun _ => none)
        [(0, DebExt.removedEv (some "bob")), (1000, DebExt.removedEv (some "bob"))]
        emptyDeb).1
    = { pending_deletions := [("bob", 1)]
        alive := [⟨0, "bob", 0 + DEBOUNCE_DELAY⟩, ⟨1, "bob", 1000 + DEBOUNCE_DELAY⟩]
        next_tid := 2 } := by
  exact c10_amended_one_entry_but_two_tasks "bob" 0 1000 (fun _ => none)
    (by decide) (by decide)

/-- Resolution counts add over concatenated reply lists. -/
theorem cmdResolutions_append (T : Nat) (rs1 rs2 : List Reply) :
    cmdResolutions T (rs1 ++ rs2) = cmdResolutions T rs1 + cmdResolutions T rs2 := by
  simp [cmdResolutions, List.filter_append]

/-- A list-request resolution is never a command-slot resolution (the two
slot types are distinct channels). -/
theorem isCmdReplyTo_respond (T : Nat) (req : PendingListRequest) (b : Bool) :
    isCmdReplyTo T (respond_list_request req b) = false := by
  cases h : req.kind <;> simp [respond_list_request, isCmdReplyTo, h]

/-- Resolving any number of list requests resolves no command slot. -/
theorem cmdResolutions_map_respond (T : Nat) (m : AList Int PendingListRequest) (b : Bool) :
    cmdResolutions T (m.map fun p => respond_list_request p.2 b) = 0 := by
  induction m with
  | nil => rfl
  | cons hd tl ih =>
    simp [cmdResolutions, List.filter_cons, isCmdReplyTo_respond] at ih ⊢
    exact ih

/-- Draining the command table sends one "Connection lost" error per
entry, so the token `T` receives as many resolutions as the table has
entries holding `T`. -/
theorem cmdResolutions_map_cmdErr (T : Nat) (m : AList Int PendingCommand) (msg : String) :
    cmdResolutions T (m.map fun p => Reply.cmdErr p.2.tok msg) =
      (cmdTokenEntries T m).length := by
  induction m with
  | nil => rfl
  | cons hd tl ih =>
    by_cases h : hd.2.tok = T <;>
      simp [cmdResolutions, cmdTokenEntries, List.filter_cons, isCmdReplyTo, h] at ih ⊢ <;>
      exact ih

/-- From "the entries holding token `T` are exactly `[(X, ⟨T⟩)]`", every
member of the table holding `T` is that entry. -/
theorem sole_pointwise {T : Nat} {X : Int} {m : AList Int PendingCommand}
    (hsole : cmdTokenEntries T m = [(X, ⟨T⟩)]) :
    ∀ p ∈ m, p.2.tok = T → p = (X, (⟨T⟩ : PendingCommand)) := by
  intro p hp ht
  have hmem : p ∈ cmdTokenEntries T m :=
    List.mem_filter.mpr ⟨hp, by simp [ht]⟩
  rw [hsole] at hmem
  simpa using hmem

/-- From "no entry holds token `T`", no member of the table holds `T`. -/
theorem empty_pointwise {T : Nat} {m : AList Int PendingCommand}
    (h0 : cmdTokenEntries T m = []) :
    ∀ p ∈ m, p.2.tok ≠ T := by
  intro p hp ht
  have hmem : p ∈ cmdTokenEntries T m :=
    List.mem_filter.mpr ⟨hp, by simp [ht]⟩
  rw [h0] at hmem
  simp at hmem

/-- Inserting a slot whose token is not `T`, at a key whose existing
entries do not hold `T`, leaves the `T`-entries unchanged. -/
theorem cmdTokenEntries_ainsert (T : Nat) (k : Int) (v : PendingCommand)
    (hv : v.tok ≠ T) (m : AList Int PendingCommand)
    (hm : ∀ p ∈ m, p.1 = k → p.2.tok ≠ T) :
    cmdTokenEntries T (ainsert k v m) = cmdTokenEntries T m := by
  induction m with
  | nil =>
    have hv' : (v.tok == T) = false := by simp [hv]
    simp [ainsert, cmdTokenEntries, List.filter_cons, hv']
  | cons hd tl ih =>
    have hm' : ∀ p ∈ tl, p.1 = k → p.2.tok ≠ T :=
      fun p hp => hm p (List.mem_cons_of_mem _ hp)
    have ih' := ih hm'
    by_cases h1 : hd.1 = k
    · have hhd : (hd.2.tok == T) = false := by
        simp [hm hd (List.mem_cons_self _ _) h1]
      have hv' : (v.tok == T) = false := by simp [hv]
      simp only [cmdTokenEntries, ainsert, h1, if_pos, List.filter_cons, hv', hhd]
      simp
    · simp only [cmdTokenEntries, ainsert, h1, if_neg, if_false,
        List.filter_cons] at ih' ⊢
      by_cases h2 : (hd.2.tok == T) = true
      · simp only [h2, if_pos, ih']
      · simp only [h2, if_false, Bool.false_eq_true, ite_false, ih']

/-- Removing a key whose entries do not hold `T` leaves the `T`-entries
unchanged. -/
theorem cmdTokenEntries_aremove (T : Nat) (k : Int)
    (m : AList Int PendingCommand)
    (hm : ∀ p ∈ m, p.1 = k → p.2.tok ≠ T) :
    cmdTokenEntries T (aremove k m) = cmdTokenEntries T m := by
  induction m with
  | nil => rfl
  | cons hd tl ih =>
    have hm' : ∀ p ∈ tl, p.1 = k → p.2.tok ≠ T :=
      fun p hp => hm p (List.mem_cons_of_mem _ hp)
    have ih' := ih hm'
    by_cases h1 : hd.1 = k
    · have hhd : (hd.2.tok == T) = false := by
        simp [hm hd (List.mem_cons_self _ _) h1]
      simp only [cmdTokenEntries, aremove, h1, if_pos, List.filter_cons, hhd,
        Bool.false_eq_true, ite_false] at ih' ⊢
      exact ih'
    · simp only [cmdTokenEntries, aremove, h1, if_neg, if_false,
        List.filter_cons] at ih' ⊢
      by_cases h2 : (hd.2.tok == T) = true
      · simp only [h2, if_pos, ih']
      · simp only [h2, if_false, Bool.false_eq_true, ite_false, ih']

/-- Removing key `X` from a table whose `T`-entries all sit at key `X`
removes every `T`-entry. -/
theorem cmdTokenEntries_aremove_all (T : Nat) (X : Int)
    (m : AList Int PendingCommand)
    (hm : ∀ p ∈ m, p.2.tok = T → p.1 = X) :
    cmdTokenEntries T (aremove X m) = [] := by
  induction m with
  | nil => rfl
  | cons hd tl ih =>
    have hm' : ∀ p ∈ tl, p.2.tok = T → p.1 = X :=
      fun p hp => hm p (List.mem_cons_of_mem _ hp)
    have ih' := ih hm'
    by_cases h1 : hd.1 = X
    · simp only [aremove, h1, if_pos]
      exact ih'
    · have hhd : (hd.2.tok == T) = false := by
        have : hd.2.tok ≠ T := fun ht => h1 (hm hd (List.mem_cons_self _ _) ht)
        simp [this]
      simp only [cmdTokenEntries, aremove, h1, if_neg, if_false,
        List.filter_cons, hhd, Bool.false_eq_true, ite_false] at ih' ⊢
      exact ih'

/-- Resolution count of a single `Ok` reply. -/
theorem cmdResolutions_cmdOk (T tok : Nat) :
    cmdResolutions T [Reply.cmdOk tok] = if tok = T then 1 else 0 := by
  by_cases h : tok = T <;>
    simp [cmdResolutions, isCmdReplyTo, List.filter_cons, h]

/-- Resolution count of a single error reply. -/
theorem cmdResolutions_cmdErr (T tok : Nat) (msg : String) :
    cmdResolutions T [Reply.cmdErr tok msg] = if tok = T then 1 else 0 := by
  by_cases h : tok = T <;>
    simp [cmdResolutions, isCmdReplyTo, List.filter_cons, h]

/-- An enumerate-all reply resolves no command slot. -/
theorem cmdResolutions_allUsers (T tok : Nat) (names : List String) :
    cmdResolutions T [Reply.allUsersReply tok names] = 0 := by
  simp [cmdResolutions, isCmdReplyTo, List.filter_cons]

/-- An existence-check reply resolves no command slot. -/
theorem cmdResolutions_existsR (T tok : Nat) (b : Bool) :
    cmdResolutions T [Reply.existsReply tok b] = 0 := by
  simp [cmdResolutions, isCmdReplyTo, List.filter_cons]

/-- An online-users reply resolves no command slot. -/
theorem cmdResolutions_online (T tok : Nat) (users : List OnlineUser) :
    cmdResolutions T [Reply.onlineReply tok users] = 0 := by
  simp [cmdResolutions, isCmdReplyTo, List.filter_cons]

/-- Observations of the pending entry survive an insert at a fresh key
with a fresh token. -/
theorem keep_after_insert (T : Nat) (X k : Int) (tok : Nat)
    (hk : k ≠ X) (ht : tok ≠ T) (m : AList Int PendingCommand)
    (hlook : alookup X m = some ⟨T⟩)
    (hsole : cmdTokenEntries T m = [(X, ⟨T⟩)]) :
    alookup X (ainsert k ⟨tok⟩ m) = some ⟨T⟩ ∧
    cmdTokenEntries T (ainsert k (⟨tok⟩ : PendingCommand) m) = [(X, ⟨T⟩)] := by
  refine ⟨by rw [alookup_ainsert_ne hk]; exact hlook, ?_⟩
  have hm : ∀ p ∈ m, p.1 = k → p.2.tok ≠ T := by
    intro p hp hpk ht2
    have hpx := sole_pointwise hsole p hp ht2
    rw [hpx] at hpk
    exact hk hpk.symm
  rw [cmdTokenEntries_ainsert T k _ ht m hm]
  exact hsole

/-- Observations of the pending entry survive removal of a different key. -/
theorem keep_after_remove (T : Nat) (X i : Int)
    (hi : i ≠ X) (m : AList Int PendingCommand)
    (hlook : alookup X m = some ⟨T⟩)
    (hsole : cmdTokenEntries T m = [(X, ⟨T⟩)]) :
    alookup X (aremove i m) = some ⟨T⟩ ∧
    cmdTokenEntries T (aremove i m) = [(X, ⟨T⟩)] := by
  refine ⟨by rw [alookup_aremove_ne hi]; exact hlook, ?_⟩
  have hm : ∀ p ∈ m, p.1 = i → p.2.tok ≠ T := by
    intro p hp hpk ht2
    have hpx := sole_pointwise hsole p hp ht2
    rw [hpx] at hpk
    exact hi hpk.symm
  rw [cmdTokenEntries_aremove T i m hm]
  exact hsole

/-- The slot resolved at a key other than `X` does not hold token `T`. -/
theorem resolved_tok_ne (T : Nat) (X i : Int) (c : PendingCommand)
    (m : AList Int PendingCommand)
    (hi : i ≠ X) (halk : alookup i m = some c)
    (hsole : cmdTokenEntries T m = [(X, ⟨T⟩)]) :
    c.tok ≠ T := by
  intro ht
  have hpx := sole_pointwise hsole (i, c) (alookup_mem halk) ht
  exact hi (congrArg Prod.fst hpx)

/-- `handle_user_account` never touches the pending-command table and
never sends a reply. -/
theorem handle_user_account_no_cmd (source : Int) (account : Option String)
    (now : Nat) (s : WorkerState) :
    (handle_user_account source account now s).state.pending_cmds = s.pending_cmds ∧
    (handle_user_account source account now s).replies = [] := by
  unfold handle_user_account
  constructor <;> (split <;> try rfl) <;> (split <;> try rfl) <;> (split <;> rfl)

/-- A non-resolving action that avoids the observed command's token and
id neither resolves slot `T` nor disturbs its table entry. -/
theorem step_pending_keep (T : Nat) (X : Int) (a : WAction) (s : WorkerState)
    (hav : avoidsCmd T X a) (htr : triggersCmd X a = false)
    (hlook : alookup X s.pending_cmds = some ⟨T⟩)
    (hsole : cmdTokenEntries T s.pending_cmds = [(X, ⟨T⟩)]) :
    cmdResolutions T (stepW a s).replies = 0 ∧
    alookup X (stepW a s).state.pending_cmds = some ⟨T⟩ ∧
    cmdTokenEntries T (stepW a s).state.pending_cmds = [(X, ⟨T⟩)] := by
  cases a with
  | cmdA c oracle bc =>
    obtain ⟨htok, hid⟩ := hav
    by_cases hlg : s.is_logged_in
    · cases c with
      | createAccount u pw nn ty tok =>
        simp only [cmdToken] at htok
        by_cases hpos : oracle.cmdId > 0 <;>
          simp only [stepW, handle_command, hlg, if_true, handle_command_connected,
            handle_create_account, hpos, if_false, ite_true, ite_false] <;>
          refine ⟨?_, ?_, ?_⟩
        · exact rfl
        · exact (keep_after_insert T X oracle.cmdId tok hid htok _ hlook hsole).1
        · exact (keep_after_insert T X oracle.cmdId tok hid htok _ hlook hsole).2
        · rw [cmdResolutions_cmdErr, if_neg htok]
        · exact hlook
        · exact hsole
      | deleteUser u tok =>
        simp only [cmdToken] at htok
        by_cases hpos : oracle.cmdId > 0 <;>
          simp only [stepW, handle_command, hlg, if_true, handle_command_connected,
            handle_delete_user, hpos, if_false, ite_true, ite_false] <;>
          refine ⟨?_, ?_, ?_⟩
        · exact rfl
        · exact (keep_after_insert T X oracle.cmdId tok hid htok _ hlook hsole).1
        · exact (keep_after_insert T X oracle.cmdId tok hid htok _ hlook hsole).2
        · rw [cmdResolutions_cmdErr, if_neg htok]
        · exact hlook
        · exact hsole
      | getAllUsers tok =>
        by_cases hpos : oracle.cmdId > 0 <;>
          simp only [stepW, handle_command, hlg, if_true, handle_command_connected,
            handle_get_all_users, hpos, if_false, ite_true, ite_false] <;>
          exact ⟨by simp [cmdResolutions, isCmdReplyTo, List.filter_cons], hlook, hsole⟩
      | checkUserExists u tok =>
        by_cases hpos : oracle.cmdId > 0 <;>
          simp only [stepW, handle_command, hlg, if_true, handle_command_connected,
            handle_check_user_exists, hpos, if_false, ite_true, ite_false] <;>
          exact ⟨by simp [cmdResolutions, isCmdReplyTo, List.filter_cons], hlook, hsole⟩
      | getOnlineUsers tok =>
        simp only [stepW, handle_command, hlg, if_true, handle_command_connected]
        exact ⟨cmdResolutions_online T tok _, hlook, hsole⟩
    · cases c <;>
        simp only [stepW, handle_command, hlg, if_false, Bool.false_eq_true, ite_false,
          handle_command_disconnected, cmdToken] at htok ⊢ <;>
        refine ⟨?_, hlook, hsole⟩
      · rw [cmdResolutions_cmdErr, if_neg htok]
      · exact cmdResolutions_existsR T _ false
      · exact cmdResolutions_online T _ []
      · exact cmdResolutions_allUsers T _ []
      · rw [cmdResolutions_cmdErr, if_neg htok]
  | evA e now =>
    cases e with
    | connectSuccess => exact ⟨rfl, hlook, hsole⟩
    | connectFailed => simp [triggersCmd] at htr
    | connectionLost => simp [triggersCmd] at htr
    | myselfLoggedIn => exact ⟨rfl, hlook, hsole⟩
    | cmdSuccess i =>
      have hi : i ≠ X := by simpa [triggersCmd] using htr
      simp only [stepW, stepEvent, handle_cmd_success]
      cases halk : alookup i s.pending_cmds with
      | none =>
        refine ⟨rfl, ?_, ?_⟩ <;> simp [halk, hlook, hsole]
      | some c =>
        have hct : c.tok ≠ T := resolved_tok_ne T X i c _ hi halk hsole
        refine ⟨?_, ?_, ?_⟩
        · simp only [halk]
          rw [cmdResolutions_cmdOk, if_neg hct]
        · simp only [halk]
          exact (keep_after_remove T X i hi _ hlook hsole).1
        · simp only [halk]
          exact (keep_after_remove T X i hi _ hlook hsole).2
    | cmdError i =>
      have hi : i ≠ X := by simpa [triggersCmd] using htr
      simp only [stepW, stepEvent, handle_cmd_error]
      have hlist : cmdResolutions T
          ((match alookup i s.pending_lists with
            | some req => (aremove i s.pending_lists, [respond_list_request req false])
            | none => (s.pending_lists, [])).2) = 0 := by
        cases hralk : alookup i s.pending_lists <;>
          simp [hralk, cmdResolutions, List.filter_cons, isCmdReplyTo_respond]
      cases halk : alookup i s.pending_cmds with
      | none =>
        refine ⟨?_, ?_, ?_⟩ <;> simp [halk, hlook, hsole, cmdResolutions_append, hlist]
      | some c =>
        have hct : c.tok ≠ T := resolved_tok_ne T X i c _ hi halk hsole
        refine ⟨?_, ?_, ?_⟩
        · simp only [halk, cmdResolutions_append, hlist]
          rw [cmdResolutions_cmdErr, if_neg hct]
        · simp only [halk]
          exact (keep_after_remove T X i hi _ hlook hsole).1
        · simp only [halk]
          exact (keep_after_remove T X i hi _ hlook hsole).2
    | userAccount i account =>
      have h := handle_user_account_no_cmd i account now s
      simp only [stepW, stepEvent, h.1, h.2]
      exact ⟨rfl, hlook, hsole⟩
    | userAccountCreated account => exact ⟨rfl, hlook, hsole⟩
    | userAccountRemoved account => exact ⟨rfl, hlook, hsole⟩
    | otherEvent => exact ⟨rfl, hlook, hsole⟩
  | flushA now =>
    simp only [stepW, flush_completed_lists]
    exact ⟨cmdResolutions_map_respond T _ true, hlook, hsole⟩

/-- A resolving action (terminal success or error for `X`, or a
connection-lost class event) resolves slot `T` exactly once and removes
its entry. -/
theorem step_pending_trigger (T : Nat) (X : Int) (a : WAction) (s : WorkerState)
    (htr : triggersCmd X a = true)
    (hlook : alookup X s.pending_cmds = some ⟨T⟩)
    (hsole : cmdTokenEntries T s.pending_cmds = [(X, ⟨T⟩)]) :
    cmdResolutions T (stepW a s).replies = 1 ∧
    cmdTokenEntries T (stepW a s).state.pending_cmds = [] := by
  have hpt : ∀ p ∈ s.pending_cmds, p.2.tok = T → p.1 = X := by
    intro p hp ht
    exact congrArg Prod.fst (sole_pointwise hsole p hp ht)
  cases a with
  | cmdA c oracle bc => simp [triggersCmd] at htr
  | flushA now => simp [triggersCmd] at htr
  | evA e now =>
    cases e with
    | connectSuccess => simp [triggersCmd] at htr
    | myselfLoggedIn => simp [triggersCmd] at htr
    | userAccount i account => simp [triggersCmd] at htr
    | userAccountCreated account => simp [triggersCmd] at htr
    | userAccountRemoved account => simp [triggersCmd] at htr
    | otherEvent => simp [triggersCmd] at htr
    | connectFailed =>
      simp only [stepW, stepEvent, handle_connection_lost]
      refine ⟨?_, rfl⟩
      rw [cmdResolutions_append, cmdResolutions_map_cmdErr, cmdResolutions_map_respond, hsole]
      simp
    | connectionLost =>
      simp only [stepW, stepEvent, handle_connection_lost]
      refine ⟨?_, rfl⟩
      rw [cmdResolutions_append, cmdResolutions_map_cmdErr, cmdResolutions_map_respond, hsole]
      simp
    | cmdSuccess i =>
      have hi : i = X := by simpa [triggersCmd] using htr
      subst hi
      simp only [stepW, stepEvent, handle_cmd_success, hlook]
      refine ⟨?_, cmdTokenEntries_aremove_all T i _ hpt⟩
      rw [cmdResolutions_cmdOk]
      simp
    | cmdError i =>
      have hi : i = X := by simpa [triggersCmd] using htr
      subst hi
      simp only [stepW, stepEvent, handle_cmd_error, hlook]
      have hlist : cmdResolutions T
          ((match alookup i s.pending_lists with
            | some req => (aremove i s.pending_lists, [respond_list_request req false])
            | none => (s.pending_lists, [])).2) = 0 := by
        cases hralk : alookup i s.pending_lists <;>
          simp [hralk, cmdResolutions, List.filter_cons, isCmdReplyTo_respond]
      refine ⟨?_, cmdTokenEntries_aremove_all T i _ hpt⟩
      rw [cmdResolutions_append, hlist, cmdResolutions_cmdErr]
      simp

/-- A step that avoids token `T` neither resolves slot `T` nor creates an
entry holding it, when none holds it already. -/
theorem step_absent (T : Nat) (X : Int) (a : WAction) (s : WorkerState)
    (hav : avoidsCmd T X a) (h0 : cmdTokenEntries T s.pending_cmds = []) :
    cmdResolutions T (stepW a s).replies = 0 ∧
    cmdTokenEntries T (stepW a s).state.pending_cmds = [] := by
  have hpt : ∀ p ∈ s.pending_cmds, p.2.tok ≠ T := empty_pointwise h0
  cases a with
  | cmdA c oracle bc =>
    obtain ⟨htok, hid⟩ := hav
    by_cases hlg : s.is_logged_in
    · cases c with
      | createAccount u pw nn ty tok =>
        simp only [cmdToken] at htok
        have hins : cmdTokenEntries T (ainsert oracle.cmdId (⟨tok⟩ : PendingCommand) s.pending_cmds) = [] := by
          rw [cmdTokenEntries_ainsert T _ _ htok _ (fun p hp _ => hpt p hp)]
          exact h0
        by_cases hpos : oracle.cmdId > 0 <;>
          simp only [stepW, handle_command, hlg, if_true, handle_command_connected,
            handle_create_account, hpos, if_false, ite_true, ite_false] <;>
          refine ⟨?_, ?_⟩
        · exact rfl
        · exact hins
        · rw [cmdResolutions_cmdErr, if_neg htok]
        · exact h0
      | deleteUser u tok =>
        simp only [cmdToken] at htok
        have hins : cmdTokenEntries T (ainsert oracle.cmdId (⟨tok⟩ : PendingCommand) s.pending_cmds) = [] := by
          rw [cmdTokenEntries_ainsert T _ _ htok _ (fun p hp _ => hpt p hp)]
          exact h0
        by_cases hpos : oracle.cmdId > 0 <;>
          simp only [stepW, handle_command, hlg, if_true, handle_command_connected,
            handle_delete_user, hpos, if_false, ite_true, ite_false] <;>
          refine ⟨?_, ?_⟩
        · exact rfl
        · exact hins
        · rw [cmdResolutions_cmdErr, if_neg htok]
        · exact h0
      | getAllUsers tok =>
        by_cases hpos : oracle.cmdId > 0 <;>
          simp only [stepW, handle_command, hlg, if_true, handle_command_connected,
            handle_get_all_users, hpos, if_false, ite_true, ite_false] <;>
          exact ⟨by simp [cmdResolutions, isCmdReplyTo, List.filter_cons], h0⟩
      | checkUserExists u tok =>
        by_cases hpos : oracle.cmdId > 0 <;>
          simp only [stepW, handle_command, hlg, if_true, handle_command_connected,
            handle_check_user_exists, hpos, if_false, ite_true, ite_false] <;>
          exact ⟨by simp [cmdResolutions, isCmdReplyTo, List.filter_cons], h0⟩
      | getOnlineUsers tok =>
        simp only [stepW, handle_command, hlg, if_true, handle_command_connected]
        exact ⟨cmdResolutions_online T tok _, h0⟩
    · cases c <;>
        simp only [stepW, handle_command, hlg, if_false, Bool.false_eq_true, ite_false,
          handle_command_disconnected, cmdToken] at htok ⊢ <;>
        refine ⟨?_, h0⟩
      · rw [cmdResolutions_cmdErr, if_neg htok]
      · exact cmdResolutions_existsR T _ false
      · exact cmdResolutions_online T _ []
      · exact cmdResolutions_allUsers T _ []
      · rw [cmdResolutions_cmdErr, if_neg htok]
  | evA e now =>
    cases e with
    | connectSuccess => exact ⟨rfl, h0⟩
    | myselfLoggedIn => exact ⟨rfl, h0⟩
    | userAccountCreated account => exact ⟨rfl, h0⟩
    | userAccountRemoved account => exact ⟨rfl, h0⟩
    | otherEvent => exact ⟨rfl, h0⟩
    | connectFailed =>
      simp only [stepW, stepEvent, handle_connection_lost]
      refine ⟨?_, rfl⟩
      rw [cmdResolutions_append, cmdResolutions_map_cmdErr, cmdResolutions_map_respond, h0]
      simp
    | connectionLost =>
      simp only [stepW, stepEvent, handle_connection_lost]
      refine ⟨?_, rfl⟩
      rw [cmdResolutions_append, cmdResolutions_map_cmdErr, cmdResolutions_map_respond, h0]
      simp
    | cmdSuccess i =>
      simp only [stepW, stepEvent, handle_cmd_success]
      cases halk : alookup i s.pending_cmds with
      | none => exact ⟨rfl, h0⟩
      | some c =>
        have hct : c.tok ≠ T := hpt (i, c) (alookup_mem halk)
        have hrem : cmdTokenEntries T (aremove i s.pending_cmds) = [] := by
          rw [cmdTokenEntries_aremove T i _ (fun p hp _ => hpt p hp)]
          exact h0
        refine ⟨?_, hrem⟩
        rw [cmdResolutions_cmdOk, if_neg hct]
    | cmdError i =>
      simp only [stepW, stepEvent, handle_cmd_error]
      have hlist : cmdResolutions T
          ((match alookup i s.pending_lists with
            | some req => (aremove i s.pending_lists, [respond_list_request req false])
            | none => (s.pending_lists, [])).2) = 0 := by
        cases hralk : alookup i s.pending_lists <;>
          simp [hralk, cmdResolutions, List.filter_cons, isCmdReplyTo_respond]
      cases halk : alookup i s.pending_cmds with
      | none =>
        refine ⟨?_, h0⟩
        rw [cmdResolutions_append, hlist]
        rfl
      | some c =>
        have hct : c.tok ≠ T := hpt (i, c) (alookup_mem halk)
        have hrem : cmdTokenEntries T (aremove i s.pending_cmds) = [] := by
          rw [cmdTokenEntries_aremove T i _ (fun p hp _ => hpt p hp)]
          exact h0
        refine ⟨?_, hrem⟩
        rw [cmdResolutions_append, hlist, cmdResolutions_cmdErr, if_neg hct]
    | userAccount i account =>
      have h := handle_user_account_no_cmd i account now s
      simp only [stepW, stepEvent, h.1, h.2]
      exact ⟨rfl, h0⟩
  | flushA now =>
    simp only [stepW, flush_completed_lists]
    exact ⟨cmdResolutions_map_respond T _ true, h0⟩

/-- Once no entry holds token `T`, an avoiding trace never resolves it
again. -/
theorem run_absent (T : Nat) (X : Int) (tr : List WAction) (s : WorkerState)
    (hav : ∀ a ∈ tr, avoidsCmd T X a)
    (h0 : cmdTokenEntries T s.pending_cmds = []) :
    cmdResolutions T (runW tr s).2 = 0 ∧
    cmdTokenEntries T (runW tr s).1.pending_cmds = [] := by
  induction tr generalizing s with
  | nil => exact ⟨rfl, h0⟩
  | cons a tr ih =>
    have h1 := step_absent T X a s (hav a (List.mem_cons_self _ _)) h0
    have h2 := ih (fun b hb => hav b (List.mem_cons_of_mem _ hb)) (s := (stepW a s).state) h1.2
    refine ⟨?_, ?_⟩
    · simp only [runW]
      rw [cmdResolutions_append, h1.1, h2.1]
    · simp only [runW]
      exact h2.2

/-- C1: a pending command registered under id `X` with reply-slot token
`T` is resolved exactly once along any trace whose later actions reuse
neither the token nor the id: once if the trace contains a terminal
success for `X`, a terminal error for `X`, or a connection-lost (or
connect-failed) event — and zero times, remaining pending, if it
contains none of these.  Whenever it is resolved, its table entry is
removed. -/
theorem c1_pending_command_resolved_exactly_once
    (T : Nat) (X : Int) (tr : List WAction) (s : WorkerState)
    (hlook : alookup X s.pending_cmds = some ⟨T⟩)
    (hsole : cmdTokenEntries T s.pending_cmds = [(X, ⟨T⟩)])
    (hav : ∀ a ∈ tr, avoidsCmd T X a) :
    cmdResolutions T (runW tr s).2 = (if tr.any (triggersCmd X) then 1 else 0) ∧
    cmdTokenEntries T (runW tr s).1.pending_cmds =
      (if tr.any (triggersCmd X) then [] else [(X, ⟨T⟩)]) ∧
    (tr.any (triggersCmd X) = false →
      alookup X (runW tr s).1.pending_cmds = some ⟨T⟩) := by
  induction tr generalizing s with
  | nil =>
    simp only [runW, List.any_nil, if_false, Bool.false_eq_true]
    exact ⟨rfl, hsole, fun _ => hlook⟩
  | cons a tr ih =>
    have hava := hav a (List.mem_cons_self _ _)
    have havtr : ∀ b ∈ tr, avoidsCmd T X b :=
      fun b hb => hav b (List.mem_cons_of_mem _ hb)
    by_cases htr : triggersCmd X a = true
    · have h1 := step_pending_trigger T X a s htr hlook hsole
      have h2 := run_absent T X tr (stepW a s).state havtr h1.2
      have hany : (a :: tr).any (triggersCmd X) = true := by
        simp [List.any_cons, htr]
      refine ⟨?_, ?_, ?_⟩
      · simp only [runW, hany, if_pos]
        rw [cmdResolutions_append, h1.1, h2.1]
      · simp only [runW, hany, if_pos]
        exact h2.2
      · intro hno
        rw [hany] at hno
        exact absurd hno (by simp)
    · have htr' : triggersCmd X a = false := by
        cases h : triggersCmd X a
        · rfl
        · exact absurd h htr
      have h1 := step_pending_keep T X a s hava htr' hlook hsole
      have h2 := ih (stepW a s).state h1.2.1 h1.2.2 havtr
      have hany : (a :: tr).any (triggersCmd X) = tr.any (triggersCmd X) := by
        simp [List.any_cons, htr']
      refine ⟨?_, ?_, ?_⟩
      · simp only [runW, hany]
        rw [cmdResolutions_append, h1.1, h2.1]
        simp
      · simp only [runW, hany]
        exact h2.2.1
      · intro hno
        rw [hany] at hno
        simp only [runW]
        exact h2.2.2 hno

/-- Witness for C1: one pending command (id 1, token 5); a connection-lost
event resolves it exactly once and empties its entry. -/
theorem c1_witness :
    cmdResolutions 5 (runW [WAction.evA TTEvent.connectionLost 0]
        { is_logged_in := true, pending_cmds := [(1, ⟨5⟩)], pending_lists := [] }).2 = 1 ∧
    cmdTokenEntries 5 (runW [WAction.evA TTEvent.connectionLost 0]
        { is_logged_in := true, pending_cmds := [(1, ⟨5⟩)], pending_lists := [] }).1.pending_cmds = [] := by
  have h := c1_pending_command_resolved_exactly_once 5 1
    [WAction.evA TTEvent.connectionLost 0]
    { is_logged_in := true, pending_cmds := [(1, ⟨5⟩)], pending_lists := [] }
    rfl rfl (by
      intro a ha
      rw [List.mem_singleton] at ha
      subst ha
      exact trivial)
  exact ⟨by simpa using h.1, by simpa using h.2.1⟩

end TTRS
